import Mathlib

/-!
Verification development for the dig-pokemon-explorer type-effectiveness
and habitat-inference engine.  The definitions below are shallow embeddings
of the TypeScript source: `useTeamTypeAnalysis.ts` (effectiveness
calculation and team aggregation), `TeamSummary.tsx` (status
classification), `TeamSidebar.tsx` (per-type multiplier and counter
extraction), `TeamContext.tsx` (roster operations) and
`habitatInference.ts` (habitat inference).  Multipliers are modelled as
rationals; the only values that arise are products of 2, 1/2 and 0, which
are exact in the source's floating-point arithmetic as well.
-/

namespace DigPokemon

/-- Damage relations of one defending type, as delivered by the type API:
the lists of attacking-type names dealing double, half and no damage to it.
Mirrors `TypeDataResponse.damage_relations` in `types/pokemon.ts`. -/
structure DamageRelations where
  double_damage_from : List String
  half_damage_from : List String
  no_damage_from : List String
deriving Repr, DecidableEq

/-- The 18 attacking types iterated by `useTeamTypeAnalysis`
(`ALL_TYPES` in `useTeamTypeAnalysis.ts`, lines 106-125). -/
def ALL_TYPES : List String :=
  ["normal", "fire", "water", "electric", "grass", "ice", "fighting",
   "poison", "ground", "flying", "psychic", "bug", "rock", "ghost",
   "dragon", "dark", "steel", "fairy"]

/-- One step of the inner loop of `useTeamTypeAnalysis` (lines 141-166):
given the running multiplier and one of the member's type names, look the
type up in the relation map; a missing entry leaves the multiplier
unchanged, otherwise multiply by 2, by 1/2 and by 0 according to the
independent membership checks of the attacking type in the three relation
lists, in that order. -/
def multStep (typeDataMap : String → Option DamageRelations) (attackingType : String)
    (acc : ℚ) (typeName : String) : ℚ :=
  match typeDataMap typeName with
  | none => acc
  | some relations =>
    let acc1 := if relations.double_damage_from.contains attackingType then acc * 2 else acc
    let acc2 := if relations.half_damage_from.contains attackingType then acc1 * (1/2) else acc1
    if relations.no_damage_from.contains attackingType then acc2 * 0 else acc2

/-- The final damage multiplier of one roster member against one attacking
type: the fold of `multStep` over the member's type names starting from 1
(`finalMultiplier` in `useTeamTypeAnalysis.ts`, lines 134-166). -/
def memberMultiplier (typeDataMap : String → Option DamageRelations)
    (types : List String) (attackingType : String) : ℚ :=
  types.foldl (multStep typeDataMap attackingType) 1

/-- One step of the per-member loop over attacking types
(`useTeamTypeAnalysis.ts`, lines 168-178): after the final multiplier of
the member against the attacking type is computed, the weakness count of
that attacking type is incremented when the multiplier is above 1, the
resistance count when it is below 1, and neither when it is exactly 1. -/
def countStep (typeDataMap : String → Option DamageRelations) (types : List String)
    (counts : (String → ℕ) × (String → ℕ)) (attackingType : String) :
    (String → ℕ) × (String → ℕ) :=
  let finalMultiplier := memberMultiplier typeDataMap types attackingType
  if 1 < finalMultiplier then
    (fun s => if s = attackingType then counts.1 s + 1 else counts.1 s, counts.2)
  else if finalMultiplier < 1 then
    (counts.1, fun s => if s = attackingType then counts.2 s + 1 else counts.2 s)
  else counts

/-- The contribution of one roster member (`useTeamTypeAnalysis.ts`,
lines 128-179): a member with an empty type list is skipped, otherwise
each of the 18 attacking types is processed with `countStep`. -/
def memberCounts (typeDataMap : String → Option DamageRelations)
    (counts : (String → ℕ) × (String → ℕ)) (types : List String) :
    (String → ℕ) × (String → ℕ) :=
  if types.isEmpty then counts
  else ALL_TYPES.foldl (countStep typeDataMap types) counts

/-- Aggregate weakness and resistance counts, represented as total
functions from attacking-type names to counts, absent keys being 0 (the
records `weaknessCounts` and `resistanceCounts` of
`useTeamTypeAnalysis.ts`, lines 94-179). -/
def aggregateCounts (typeDataMap : String → Option DamageRelations)
    (team : List (List String)) : (String → ℕ) × (String → ℕ) :=
  team.foldl (memberCounts typeDataMap) (fun _ => 0, fun _ => 0)

/-- One successful type query result: the name under which the map entry
is stored and the damage relations (`query.data` in
`useTeamTypeAnalysis.ts`). -/
structure TypeQueryResult where
  name : String
  damage_relations : DamageRelations
deriving Repr, DecidableEq

/-- The relation map built from the query results (lines 98-103): each
result with data stores its relations under its own name, later entries
overwriting earlier ones. -/
def buildTypeDataMap (queries : List (Option TypeQueryResult)) :
    String → Option DamageRelations :=
  queries.foldl
    (fun acc q =>
      match q with
      | none => acc
      | some result =>
        fun s => if s = result.name then some result.damage_relations else acc s)
    (fun _ => none)

/-- The memoised aggregation of `useTeamTypeAnalysis` (lines 88-185):
when any type query is still loading or has no data the hook returns
empty weakness and resistance records; otherwise it builds the relation
map and aggregates the team. -/
def useTeamTypeAnalysis (queries : List (Option TypeQueryResult))
    (team : List (List String)) : (String → ℕ) × (String → ℕ) :=
  if queries.any (fun q => q.isNone) then (fun _ => 0, fun _ => 0)
  else aggregateCounts (buildTypeDataMap queries) team

/-- Modelled from the spec: the per-type factor the specification's
algorithm sentence assigns one defending type against one attacking type,
2 when the attacker is in the double-damage list, 1/2 when in the
half-damage list, 0 when in the no-damage list and 1 otherwise.  Used on
the specification side of the refinement statement for claim C1. -/
def specFactor (relations : DamageRelations) (attackingType : String) : ℚ :=
  if relations.double_damage_from.contains attackingType then 2
  else if relations.half_damage_from.contains attackingType then 1/2
  else if relations.no_damage_from.contains attackingType then 0
  else 1

/-- Per-type multiplier of the earlier `TeamSidebar.tsx` aggregation
(lines 113-129): immunity is checked first, then weakness, then
resistance, with an else-if chain, so the lists are consulted in the
priority order no-damage, double-damage, half-damage. -/
def sidebarTypeMultiplier (relations : DamageRelations) (attackingType : String) : ℚ :=
  if relations.no_damage_from.contains attackingType then 0
  else if relations.double_damage_from.contains attackingType then 2
  else if relations.half_damage_from.contains attackingType then 1/2
  else 1

/-- Insert an element into a JavaScript `Set` modelled as its insertion
order list: a new element is appended, a present one is ignored. -/
def setAdd (l : List String) (s : String) : List String :=
  if l.contains s then l else l ++ [s]

/-- The counter-type extraction of `extractAndNavigate` in
`TeamSidebar.tsx` (lines 518-535): with no relation data nothing is
produced; otherwise the names of the double-damage-from list are collected
into a set. -/
def findCounterTypes (typeData : Option DamageRelations) : Option (List String) :=
  match typeData with
  | none => none
  | some relations => some (relations.double_damage_from.foldl setAdd [])

/-! Canonical damage-relation chart entries.  The chart itself is
upstream reference data fetched from the type API and is not part of the
repository; the entries below are fixed concrete inputs used for the
specification's concrete cases. -/

/-- Modelled from the spec: the canonical chart entry for fire, whose
double-damage-from set is listed in the specification as water, ground
and rock, and which takes half damage from fire among others. -/
def fireRelations : DamageRelations where
  double_damage_from := ["water", "ground", "rock"]
  half_damage_from := ["fire", "grass", "ice", "bug", "steel", "fairy"]
  no_damage_from := []

/-- Modelled from the spec: the canonical chart entry for steel, which
takes double damage from fire among others. -/
def steelRelations : DamageRelations where
  double_damage_from := ["fire", "fighting", "ground"]
  half_damage_from := ["normal", "grass", "ice", "flying", "psychic", "bug",
                       "rock", "dragon", "steel", "fairy"]
  no_damage_from := ["poison"]

/-- Modelled from the spec: the canonical chart entry for rock, which
takes double damage from water among others. -/
def rockRelations : DamageRelations where
  double_damage_from := ["water", "grass", "fighting", "ground", "steel"]
  half_damage_from := ["normal", "fire", "poison", "flying"]
  no_damage_from := []

/-- Modelled from the spec: the canonical chart entry for ground, which
takes double damage from water among others. -/
def groundRelations : DamageRelations where
  double_damage_from := ["water", "grass", "ice"]
  half_damage_from := ["poison", "rock"]
  no_damage_from := ["electric"]

/-- Canonical relation map holding the fire, steel, rock and ground
entries under their names and nothing else. -/
def canonicalMap : String → Option DamageRelations := fun s =>
  if s = "fire" then some fireRelations
  else if s = "steel" then some steelRelations
  else if s = "rock" then some rockRelations
  else if s = "ground" then some groundRelations
  else none

/-! Habitat inference, embedded from `habitatInference.ts`. -/

/-- The nine canonical habitat names of `pokemonHabitats.ts`. -/
inductive HabitatName where
  | cave
  | forest
  | grassland
  | mountain
  | rare
  | roughTerrain
  | sea
  | urban
  | watersEdge
deriving Repr, DecidableEq

/-- The single-type fallback table `TYPE_HABITAT_PATTERNS` of
`habitatInference.ts` (lines 13-55): the own keys of the record literal
the source declares, with `none` for every other name.  The JavaScript
indexing `TYPE_HABITAT_PATTERNS[type]` additionally reaches the inherited
properties of `Object.prototype` for exotic keys such as `constructor`;
that runtime behaviour is modelled separately by
`TYPE_HABITAT_PATTERNS_runtimeLookup` below, and the two coincide on
every name that is not an `Object.prototype` property name. -/
def TYPE_HABITAT_PATTERNS : String → Option HabitatName := fun s =>
  if s = "water" then some .sea
  else if s = "rock" then some .cave
  else if s = "ground" then some .cave
  else if s = "grass" then some .forest
  else if s = "bug" then some .forest
  else if s = "flying" then some .mountain
  else if s = "dragon" then some .mountain
  else if s = "electric" then some .urban
  else if s = "steel" then some .urban
  else if s = "psychic" then some .urban
  else if s = "normal" then some .grassland
  else if s = "fighting" then some .roughTerrain
  else if s = "fairy" then some .rare
  else if s = "ghost" then some .rare
  else if s = "ice" then some .mountain
  else if s = "poison" then some .urban
  else if s = "fire" then some .roughTerrain
  else if s = "dark" then some .urban
  else none

/-- One combination rule: a required set of type names, the habitat it
maps to and an integer priority. -/
structure CombinationRule where
  types : List String
  habitat : HabitatName
  priority : ℕ
deriving Repr, DecidableEq

/-- The combination rule table `COMBINATION_PATTERNS` of
`habitatInference.ts` (lines 61-145), in declaration order. -/
def COMBINATION_PATTERNS : List CombinationRule :=
  [⟨["water", "flying"], .watersEdge, 10⟩,
   ⟨["water", "ground"], .watersEdge, 10⟩,
   ⟨["water", "grass"], .watersEdge, 9⟩,
   ⟨["water", "bug"], .watersEdge, 9⟩,
   ⟨["water", "ice"], .sea, 9⟩,
   ⟨["water", "dragon"], .sea, 9⟩,
   ⟨["water", "psychic"], .sea, 8⟩,
   ⟨["water", "dark"], .sea, 8⟩,
   ⟨["water", "steel"], .sea, 8⟩,
   ⟨["water", "rock"], .watersEdge, 9⟩,
   ⟨["water", "poison"], .sea, 8⟩,
   ⟨["rock", "ground"], .cave, 10⟩,
   ⟨["rock", "dark"], .cave, 9⟩,
   ⟨["rock", "steel"], .cave, 9⟩,
   ⟨["ground", "dark"], .cave, 8⟩,
   ⟨["ground", "steel"], .cave, 8⟩,
   ⟨["rock", "psychic"], .mountain, 8⟩,
   ⟨["grass", "bug"], .forest, 10⟩,
   ⟨["grass", "poison"], .forest, 10⟩,
   ⟨["grass", "flying"], .forest, 9⟩,
   ⟨["grass", "fairy"], .forest, 9⟩,
   ⟨["bug", "poison"], .forest, 9⟩,
   ⟨["bug", "flying"], .forest, 9⟩,
   ⟨["bug", "steel"], .forest, 8⟩,
   ⟨["flying", "dragon"], .mountain, 10⟩,
   ⟨["flying", "psychic"], .mountain, 8⟩,
   ⟨["flying", "steel"], .mountain, 8⟩,
   ⟨["dragon", "ground"], .mountain, 9⟩,
   ⟨["electric", "steel"], .urban, 10⟩,
   ⟨["electric", "flying"], .urban, 8⟩,
   ⟨["steel", "psychic"], .urban, 9⟩,
   ⟨["steel", "fairy"], .urban, 8⟩,
   ⟨["fighting", "rock"], .roughTerrain, 9⟩,
   ⟨["fighting", "ground"], .roughTerrain, 9⟩,
   ⟨["fighting", "steel"], .roughTerrain, 8⟩,
   ⟨["fighting", "dark"], .roughTerrain, 8⟩,
   ⟨["ghost", "fairy"], .rare, 10⟩,
   ⟨["ghost", "psychic"], .rare, 9⟩,
   ⟨["fairy", "psychic"], .rare, 9⟩,
   ⟨["dragon", "psychic"], .rare, 8⟩,
   ⟨["dragon", "fairy"], .rare, 9⟩,
   ⟨["fire", "flying"], .mountain, 9⟩,
   ⟨["fire", "rock"], .mountain, 9⟩,
   ⟨["fire", "ground"], .roughTerrain, 8⟩,
   ⟨["fire", "fighting"], .roughTerrain, 9⟩,
   ⟨["fire", "steel"], .roughTerrain, 8⟩,
   ⟨["fire", "dragon"], .mountain, 9⟩,
   ⟨["ice", "flying"], .mountain, 9⟩,
   ⟨["ice", "psychic"], .mountain, 8⟩,
   ⟨["ice", "steel"], .mountain, 8⟩,
   ⟨["ice", "ground"], .mountain, 9⟩,
   ⟨["dark", "poison"], .urban, 8⟩,
   ⟨["dark", "steel"], .urban, 9⟩,
   ⟨["dark", "flying"], .urban, 7⟩,
   ⟨["poison", "flying"], .urban, 7⟩,
   ⟨["normal", "flying"], .grassland, 9⟩,
   ⟨["normal", "fairy"], .grassland, 8⟩,
   ⟨["normal", "psychic"], .grassland, 7⟩]

/-- A combination rule matches when every one of its required type names
is present in the processed type-name list (the `every`/`includes` check
of `habitatInference.ts`, lines 174-176; the source sorts the rule's own
list first, which does not affect the check). -/
def ruleMatches (typeNames : List String) (rule : CombinationRule) : Bool :=
  rule.types.all (fun patternType => typeNames.contains patternType)

/-- The best-match scan of `inferHabitatFromTypes` (lines 168-183): walk
the rule table in order keeping the current best habitat and priority,
replacing it only on a strictly higher priority, so among equal-priority
matches the first-declared rule wins. -/
def bestCombMatch (typeNames : List String) :
    List CombinationRule → Option (HabitatName × ℕ) → Option (HabitatName × ℕ)
  | [], best => best
  | rule :: rest, best =>
    if ruleMatches typeNames rule then
      match best with
      | none => bestCombMatch typeNames rest (some (rule.habitat, rule.priority))
      | some b =>
        if b.2 < rule.priority then
          bestCombMatch typeNames rest (some (rule.habitat, rule.priority))
        else bestCombMatch typeNames rest (some b)
    else bestCombMatch typeNames rest best

/-- ASCII lowercasing of one character, as JavaScript's `toLowerCase`
acts on the ASCII type names: a code point between 65 and 90 is shifted
by 32, anything else is unchanged.  JavaScript's `toLowerCase` also
applies Unicode case mappings outside ASCII (for example U+212A KELVIN
SIGN becomes the letter k); the model is exact on ASCII strings, which
covers every canonical type name and every concrete input used below. -/
def jsCharLower (c : Char) : Char :=
  if c.toNat < 65 then c
  else if 90 < c.toNat then c
  else Char.ofNat (c.toNat + 32)

/-- Lowercasing of a type name character by character. -/
def jsToLower (s : String) : String :=
  String.mk (s.data.map jsCharLower)

/-- Strict lexicographic comparison of character lists by code point,
the order JavaScript's default array sort applies to strings. -/
def charListLt : List Char → List Char → Bool
  | [], [] => false
  | [], _ :: _ => true
  | _ :: _, [] => false
  | c :: cs, d :: ds =>
    if c.toNat < d.toNat then true
    else if d.toNat < c.toNat then false
    else charListLt cs ds

/-- Non-strict string comparison derived from `charListLt`. -/
def jsStrLe (a b : String) : Bool :=
  !(charListLt b.data a.data)

/-- Insert a string into an already sorted list, keeping earlier equal
elements in front. -/
def sortedInsert (s : String) : List String → List String
  | [] => [s]
  | t :: ts => if jsStrLe s t then s :: t :: ts else t :: sortedInsert s ts

/-- Stable insertion sort of a string list under `jsStrLe`; agrees with
JavaScript's default array sort on the type names. -/
def jsSort (l : List String) : List String :=
  l.foldr sortedInsert []

/-- The processed type-name list of `inferHabitatFromTypes` (line 165):
the names lowercased and then sorted lexicographically, as JavaScript's
default array sort does for strings. -/
def processedTypeNames (types : List String) : List String :=
  jsSort (types.map jsToLower)

/-- `inferHabitatFromTypes` of `habitatInference.ts` (lines 158-198):
an empty type list yields grassland; otherwise the combination rules are
scanned for the best match; failing that, the first processed type name
with a single-type fallback entry decides; failing that, grassland. -/
def inferHabitatFromTypes (types : List String) : HabitatName :=
  if types.isEmpty then .grassland
  else
    match bestCombMatch (processedTypeNames types) COMBINATION_PATTERNS none with
    | some best => best.1
    | none =>
      match (processedTypeNames types).find? (fun t => (TYPE_HABITAT_PATTERNS t).isSome) with
      | some t => (TYPE_HABITAT_PATTERNS t).getD .grassland
      | none => .grassland

/-- `getHabitatWithInference` of `habitatInference.ts` (lines 208-219):
an available authoritative habitat is returned unchanged, otherwise the
habitat is inferred from the types. -/
def getHabitatWithInference (apiHabitat : Option HabitatName)
    (types : List String) : HabitatName :=
  match apiHabitat with
  | some habitat => habitat
  | none => inferHabitatFromTypes types

/-- The value a JavaScript record lookup can produce at runtime: an own
entry of the habitat table, or a truthy non-habitat value inherited from
`Object.prototype` (such as the `constructor` function); `none` stands
for the falsy `undefined`. -/
inductive JsLookupValue where
  | habitat (h : HabitatName)
  | inheritedObjectProperty
deriving Repr, DecidableEq

/-- The property names every plain JavaScript object inherits from
`Object.prototype`, all of which evaluate to truthy values (functions,
or the prototype object itself for `__proto__`). -/
def jsPrototypeKeys : List String :=
  ["constructor", "hasOwnProperty", "isPrototypeOf", "propertyIsEnumerable",
   "toLocaleString", "toString", "valueOf", "__proto__",
   "__defineGetter__", "__defineSetter__", "__lookupGetter__", "__lookupSetter__"]

/-- The indexing `TYPE_HABITAT_PATTERNS[type]` as JavaScript executes it:
an own key yields its habitat, a name inherited from `Object.prototype`
yields the truthy inherited property, anything else is undefined. -/
def TYPE_HABITAT_PATTERNS_runtimeLookup (s : String) : Option JsLookupValue :=
  match TYPE_HABITAT_PATTERNS s with
  | some h => some (JsLookupValue.habitat h)
  | none =>
    if jsPrototypeKeys.contains s then some JsLookupValue.inheritedObjectProperty
    else none

/-- The single-type fallback loop of `inferHabitatFromTypes`
(lines 190-194) under the runtime lookup: the first type name whose
lookup is truthy has its looked-up value returned — which for an
inherited `Object.prototype` name is the inherited property, not a
habitat. -/
def singleTypeFallbackJs : List String → Option JsLookupValue
  | [] => none
  | t :: rest =>
    match TYPE_HABITAT_PATTERNS_runtimeLookup t with
    | some v => some v
    | none => singleTypeFallbackJs rest

/-! Roster operations, embedded from `TeamContext.tsx`. -/

/-- A team member as stored in the roster (`TeamPokemon` in
`TeamContext.tsx`). -/
structure TeamPokemon where
  id : ℕ
  name : String
  imageUrl : Option String
deriving Repr, DecidableEq

/-- Maximum roster size (`MAX_TEAM_SIZE` in `TeamContext.tsx`). -/
def MAX_TEAM_SIZE : ℕ := 6

/-- `addPokemonToTeam` (lines 74-88): refuse a full team, refuse a
duplicate id, otherwise append and report success. -/
def addPokemonToTeam (team : List TeamPokemon) (pokemon : TeamPokemon) :
    List TeamPokemon × Bool :=
  if MAX_TEAM_SIZE ≤ team.length then (team, false)
  else if team.any (fun p => p.id = pokemon.id) then (team, false)
  else (team ++ [pokemon], true)

/-- `removePokemonFromTeam` (lines 93-95): keep exactly the members whose
id differs from the given one. -/
def removePokemonFromTeam (team : List TeamPokemon) (pokemonId : ℕ) :
    List TeamPokemon :=
  team.filter (fun pokemon => pokemon.id ≠ pokemonId)

/-- Team states reachable from the empty team through the two context
operations. -/
inductive ReachableTeam : List TeamPokemon → Prop where
  | empty : ReachableTeam []
  | add (team : List TeamPokemon) (pokemon : TeamPokemon) :
      ReachableTeam team → ReachableTeam (addPokemonToTeam team pokemon).1
  | remove (team : List TeamPokemon) (pokemonId : ℕ) :
      ReachableTeam team → ReachableTeam (removePokemonFromTeam team pokemonId)

/-! Team status classification, embedded from `TeamSummary.tsx`. -/

/-- The four team statuses of `TeamSummary.tsx`. -/
inductive TeamStatus where
  | critical
  | warning
  | good
  | neutral
deriving Repr, DecidableEq

/-- Record lookup with default 0, as `resistances[typeName] || 0` reads a
count object represented by its entry list. -/
def recordLookup (entries : List (String × ℕ)) (typeName : String) : ℕ :=
  match entries.find? (fun e => e.1 = typeName) with
  | some e => e.2
  | none => 0

/-- The status computed by `getTeamSummary` in `TeamSummary.tsx`
(lines 48-95), on the entry lists of the weakness and resistance records:
first any weakness entry of count at least 3 with zero resistance count
gives critical; then any entry of count at least 2 with zero resistance
count gives warning; then, if no entry has count at least 3 and every
entry of count at least 2 has a resistance key present and at least one
such entry exists, good; otherwise neutral. -/
def getTeamSummaryStatus (weaknesses resistances : List (String × ℕ)) : TeamStatus :=
  if weaknesses.any (fun e => 3 ≤ e.2 && recordLookup resistances e.1 = 0) then
    .critical
  else if weaknesses.any (fun e => 2 ≤ e.2 && recordLookup resistances e.1 = 0) then
    .warning
  else if !weaknesses.any (fun e => 3 ≤ e.2)
      && (weaknesses.filter (fun e => 2 ≤ e.2)).all
           (fun e => (resistances.find? (fun r => r.1 = e.1)).isSome)
      && 0 < (weaknesses.filter (fun e => 2 ≤ e.2)).length then
    .good
  else .neutral

/-! Helper lemmas about the aggregation folds. -/

/-- Effect of one `countStep` on the weakness count at one point. -/
lemma countStep_fst_apply (m : String → Option DamageRelations) (types : List String)
    (counts : (String → ℕ) × (String → ℕ)) (t atk : String) :
    (countStep m types counts t).1 atk =
      counts.1 atk +
        (if atk = t ∧ 1 < memberMultiplier m types t then 1 else 0) := by
  by_cases h1 : 1 < memberMultiplier m types t
  · by_cases hat : atk = t
    · subst hat
      simp [countStep, h1]
    · simp [countStep, h1, hat]
  · have hfalse : ¬(atk = t ∧ 1 < memberMultiplier m types t) := fun h => h1 h.2
    by_cases h2 : memberMultiplier m types t < 1 <;>
      simp [countStep, h1, h2, hfalse]

/-- Effect of one `countStep` on the resistance count at one point. -/
lemma countStep_snd_apply (m : String → Option DamageRelations) (types : List String)
    (counts : (String → ℕ) × (String → ℕ)) (t atk : String) :
    (countStep m types counts t).2 atk =
      counts.2 atk +
        (if atk = t ∧ memberMultiplier m types t < 1 then 1 else 0) := by
  by_cases h1 : 1 < memberMultiplier m types t
  · have h2 : ¬ memberMultiplier m types t < 1 := not_lt_of_gt h1
    have hfalse : ¬(atk = t ∧ memberMultiplier m types t < 1) := fun h => h2 h.2
    simp [countStep, h1, hfalse]
  · by_cases h2 : memberMultiplier m types t < 1
    · by_cases hat : atk = t
      · subst hat
        simp [countStep, h1, h2]
      · simp [countStep, h1, h2, hat]
    · have hfalse : ¬(atk = t ∧ memberMultiplier m types t < 1) := fun h => h2 h.2
      simp [countStep, h1, h2, hfalse]

/-- Folding `countStep` over a list of attacking types adds one to the
weakness count at `atk` for each occurrence of `atk` in the list when the
member's multiplier against `atk` is above 1. -/
lemma foldl_countStep_fst (m : String → Option DamageRelations) (types : List String)
    (atk : String) :
    ∀ (l : List String) (counts : (String → ℕ) × (String → ℕ)),
    (l.foldl (countStep m types) counts).1 atk =
      counts.1 atk +
        l.count atk * (if 1 < memberMultiplier m types atk then 1 else 0) := by
  intro l
  induction l with
  | nil => simp
  | cons t ts ih =>
    intro counts
    rw [List.foldl_cons, ih, countStep_fst_apply]
    by_cases hat : atk = t
    · subst hat
      by_cases hc : 1 < memberMultiplier m types atk <;>
        simp [List.count_cons_self, hc] <;> omega
    · have hcn : (t :: ts).count atk = ts.count atk := by
        simp [List.count_cons, Ne.symm hat]
      simp [hcn, hat]

/-- Folding `countStep` over a list of attacking types adds one to the
resistance count at `atk` for each occurrence of `atk` in the list when
the member's multiplier against `atk` is below 1. -/
lemma foldl_countStep_snd (m : String → Option DamageRelations) (types : List String)
    (atk : String) :
    ∀ (l : List String) (counts : (String → ℕ) × (String → ℕ)),
    (l.foldl (countStep m types) counts).2 atk =
      counts.2 atk +
        l.count atk * (if memberMultiplier m types atk < 1 then 1 else 0) := by
  intro l
  induction l with
  | nil => simp
  | cons t ts ih =>
    intro counts
    rw [List.foldl_cons, ih, countStep_snd_apply]
    by_cases hat : atk = t
    · subst hat
      by_cases hc : memberMultiplier m types atk < 1 <;>
        simp [List.count_cons_self, hc] <;> omega
    · have hcn : (t :: ts).count atk = ts.count atk := by
        simp [List.count_cons, Ne.symm hat]
      simp [hcn, hat]

/-- The multiplier of a member with an empty type list is the neutral 1. -/
lemma memberMultiplier_nil (m : String → Option DamageRelations) (atk : String) :
    memberMultiplier m [] atk = 1 := rfl

/-- The 18-entry attacking-type list has no duplicates. -/
lemma all_types_nodup : ALL_TYPES.Nodup := by decide

/-- Effect of one member on the weakness count at an attacking type of
the canonical list. -/
lemma memberCounts_fst_apply (m : String → Option DamageRelations)
    (counts : (String → ℕ) × (String → ℕ)) (types : List String) (atk : String)
    (hmem : atk ∈ ALL_TYPES) :
    (memberCounts m counts types).1 atk =
      counts.1 atk + (if 1 < memberMultiplier m types atk then 1 else 0) := by
  unfold memberCounts
  have hcount : ALL_TYPES.count atk = 1 := List.count_eq_one_of_mem all_types_nodup hmem
  split
  · rename_i hempty
    have : types = [] := by simpa [List.isEmpty_iff] using hempty
    subst this
    simp [memberMultiplier_nil]
  · rw [foldl_countStep_fst, hcount, Nat.one_mul]

/-- Effect of one member on the resistance count at an attacking type of
the canonical list. -/
lemma memberCounts_snd_apply (m : String → Option DamageRelations)
    (counts : (String → ℕ) × (String → ℕ)) (types : List String) (atk : String)
    (hmem : atk ∈ ALL_TYPES) :
    (memberCounts m counts types).2 atk =
      counts.2 atk + (if memberMultiplier m types atk < 1 then 1 else 0) := by
  unfold memberCounts
  have hcount : ALL_TYPES.count atk = 1 := List.count_eq_one_of_mem all_types_nodup hmem
  split
  · rename_i hempty
    have : types = [] := by simpa [List.isEmpty_iff] using hempty
    subst this
    simp [memberMultiplier_nil]
  · rw [foldl_countStep_snd, hcount, Nat.one_mul]

/-- Folding the member contributions over the team counts, per attacking
type of the canonical list, the members whose multiplier is above 1. -/
lemma foldl_memberCounts_fst (m : String → Option DamageRelations) (atk : String)
    (hmem : atk ∈ ALL_TYPES) :
    ∀ (team : List (List String)) (counts : (String → ℕ) × (String → ℕ)),
    (team.foldl (memberCounts m) counts).1 atk =
      counts.1 atk +
        (team.filter (fun types => decide (1 < memberMultiplier m types atk))).length := by
  intro team
  induction team with
  | nil => simp
  | cons types rest ih =>
    intro counts
    rw [List.foldl_cons, ih, memberCounts_fst_apply m counts types atk hmem]
    by_cases h : 1 < memberMultiplier m types atk
    · simp [List.filter_cons, h, Nat.add_comm, Nat.add_assoc, Nat.add_left_comm]
    · simp [List.filter_cons, h]

/-- Folding the member contributions over the team counts, per attacking
type of the canonical list, the members whose multiplier is below 1. -/
lemma foldl_memberCounts_snd (m : String → Option DamageRelations) (atk : String)
    (hmem : atk ∈ ALL_TYPES) :
    ∀ (team : List (List String)) (counts : (String → ℕ) × (String → ℕ)),
    (team.foldl (memberCounts m) counts).2 atk =
      counts.2 atk +
        (team.filter (fun types => decide (memberMultiplier m types atk < 1))).length := by
  intro team
  induction team with
  | nil => simp
  | cons types rest ih =>
    intro counts
    rw [List.foldl_cons, ih, memberCounts_snd_apply m counts types atk hmem]
    by_cases h : memberMultiplier m types atk < 1
    · simp [List.filter_cons, h, Nat.add_comm, Nat.add_assoc, Nat.add_left_comm]
    · simp [List.filter_cons, h]

/-- The aggregate counts are member counts: weakness and resistance
entries of the aggregation equal the number of members whose multiplier
is above, respectively below, 1. -/
lemma aggregateCounts_apply (m : String → Option DamageRelations)
    (team : List (List String)) (atk : String) (hmem : atk ∈ ALL_TYPES) :
    (aggregateCounts m team).1 atk =
      (team.filter (fun types => decide (1 < memberMultiplier m types atk))).length ∧
    (aggregateCounts m team).2 atk =
      (team.filter (fun types => decide (memberMultiplier m types atk < 1))).length := by
  unfold aggregateCounts
  constructor
  · rw [foldl_memberCounts_fst m atk hmem]
    simp
  · rw [foldl_memberCounts_snd m atk hmem]
    simp

/-- The relations a member type contributes, the empty entry standing
for a missing one; the empty entry's factor is neutral. -/
def relationsOrEmpty (m : String → Option DamageRelations) (ty : String) : DamageRelations :=
  (m ty).getD (DamageRelations.mk [] [] [])

/-- The data contract on one relation entry at one attacking type: the
attacking type lies in at most one of the three relation lists. -/
def disjointAt (rel : DamageRelations) (atk : String) : Prop :=
  ¬(rel.double_damage_from.contains atk = true ∧ rel.half_damage_from.contains atk = true) ∧
  ¬(rel.double_damage_from.contains atk = true ∧ rel.no_damage_from.contains atk = true) ∧
  ¬(rel.half_damage_from.contains atk = true ∧ rel.no_damage_from.contains atk = true)

instance (rel : DamageRelations) (atk : String) : Decidable (disjointAt rel atk) := by
  unfold disjointAt
  infer_instance

/-- Under the data contract, one multiplication step of the source's
loop multiplies the accumulator by the specification's per-type factor. -/
lemma multStep_eq_mul_specFactor (m : String → Option DamageRelations) (atk ty : String)
    (acc : ℚ) (hdisj : disjointAt (relationsOrEmpty m ty) atk) :
    multStep m atk acc ty = acc * specFactor (relationsOrEmpty m ty) atk := by
  obtain ⟨hdh, hdn, hhn⟩ := hdisj
  unfold multStep relationsOrEmpty at *
  cases hm : m ty with
  | none =>
    simp [hm, specFactor]
  | some rel =>
    simp only [hm, Option.getD_some, List.elem_iff] at hdh hdn hhn ⊢
    by_cases hd : atk ∈ rel.double_damage_from
    · have hh : atk ∉ rel.half_damage_from := fun h => hdh ⟨hd, h⟩
      have hn : atk ∉ rel.no_damage_from := fun h => hdn ⟨hd, h⟩
      simp [specFactor, List.elem_iff, hd, hh, hn]
    · by_cases hh : atk ∈ rel.half_damage_from
      · have hn : atk ∉ rel.no_damage_from := fun h => hhn ⟨hh, h⟩
        simp [specFactor, List.elem_iff, hd, hh, hn]
      · by_cases hn : atk ∈ rel.no_damage_from <;>
          simp [specFactor, List.elem_iff, hd, hh, hn]

/-- Folding the multiplication steps from any accumulator multiplies it
by the product of the per-type factors, under the data contract. -/
lemma foldl_multStep_eq_prod (m : String → Option DamageRelations) (atk : String) :
    ∀ (types : List String) (acc : ℚ),
    (∀ ty ∈ types, disjointAt (relationsOrEmpty m ty) atk) →
    types.foldl (multStep m atk) acc =
      acc * (types.map (fun ty => specFactor (relationsOrEmpty m ty) atk)).prod := by
  intro types
  induction types with
  | nil => simp
  | cons ty rest ih =>
    intro acc hdisj
    rw [List.foldl_cons,
      multStep_eq_mul_specFactor m atk ty acc (hdisj ty (List.mem_cons_self ty rest)),
      ih (acc * specFactor (relationsOrEmpty m ty) atk)
        (fun t ht => hdisj t (List.mem_cons_of_mem ty ht))]
    simp [mul_assoc]

/-- A type with no relation data leaves the accumulator unchanged, so
the final multiplier ignores the missing types entirely. -/
lemma memberMultiplier_filter_available (m : String → Option DamageRelations)
    (atk : String) :
    ∀ (types : List String) (acc : ℚ),
    types.foldl (multStep m atk) acc =
      (types.filter (fun ty => (m ty).isSome)).foldl (multStep m atk) acc := by
  intro types
  induction types with
  | nil => simp
  | cons ty rest ih =>
    intro acc
    by_cases hm : (m ty).isSome
    · rw [List.foldl_cons, List.filter_cons_of_pos (by simpa using hm), List.foldl_cons, ih]
    · have hnone : m ty = none := by
        cases h : m ty with
        | none => rfl
        | some rel => rw [h] at hm; simp at hm
      rw [List.foldl_cons, List.filter_cons_of_neg (by simpa using hm)]
      have hstep : multStep m atk acc ty = acc := by
        unfold multStep
        rw [hnone]
      rw [hstep, ih]

/-! Helper lemmas about the combination-rule scan. -/

/-- The highest priority occurring in a rule list, 0 for the empty list. -/
def maxPriority (rules : List CombinationRule) : ℕ :=
  rules.foldr (fun r acc => max r.priority acc) 0

/-- A bound on the maximal priority bounds every member's priority. -/
lemma maxPriority_le_iff (rules : List CombinationRule) (n : ℕ) :
    maxPriority rules ≤ n ↔ ∀ r ∈ rules, r.priority ≤ n := by
  induction rules with
  | nil => simp [maxPriority]
  | cons r rest ih =>
    simp [maxPriority, Nat.max_le] at ih ⊢
    exact fun _ => ih

/-- The accumulator phase of the best-match scan, once a first match has
been adopted: each further matching rule replaces the current best pair
only on a strictly higher priority. -/
def selectAcc (p : HabitatName × ℕ) : List CombinationRule → HabitatName × ℕ
  | [] => p
  | r :: rest => selectAcc (if p.2 < r.priority then (r.habitat, r.priority) else p) rest

/-- With an adopted best pair, the scan only consults the matching rules. -/
lemma bestCombMatch_some (typeNames : List String) :
    ∀ (rules : List CombinationRule) (p : HabitatName × ℕ),
    bestCombMatch typeNames rules (some p) =
      some (selectAcc p (rules.filter (ruleMatches typeNames))) := by
  intro rules
  induction rules with
  | nil => intro p; rfl
  | cons r rest ih =>
    intro p
    by_cases hm : ruleMatches typeNames r
    · rw [List.filter_cons_of_pos hm]
      unfold bestCombMatch
      rw [if_pos hm]
      show (if p.2 < r.priority then bestCombMatch typeNames rest (some (r.habitat, r.priority))
            else bestCombMatch typeNames rest (some p)) =
          some (selectAcc p (r :: List.filter (ruleMatches typeNames) rest))
      by_cases hp : p.2 < r.priority
      · rw [if_pos hp, ih]
        simp [selectAcc, hp]
      · rw [if_neg hp, ih]
        simp [selectAcc, hp]
    · rw [List.filter_cons_of_neg hm]
      unfold bestCombMatch
      rw [if_neg hm, ih]

/-- From no adopted pair, the scan adopts the first matching rule and
continues in the accumulator phase over the remaining matches. -/
lemma bestCombMatch_none (typeNames : List String) :
    ∀ (rules : List CombinationRule),
    bestCombMatch typeNames rules none =
      match rules.filter (ruleMatches typeNames) with
      | [] => none
      | r :: rest => some (selectAcc (r.habitat, r.priority) rest) := by
  intro rules
  induction rules with
  | nil => rfl
  | cons r rest ih =>
    by_cases hm : ruleMatches typeNames r
    · rw [List.filter_cons_of_pos hm]
      unfold bestCombMatch
      rw [if_pos hm]
      exact bestCombMatch_some typeNames rest (r.habitat, r.priority)
    · rw [List.filter_cons_of_neg hm]
      unfold bestCombMatch
      rw [if_neg hm, ih]

/-- The accumulator phase keeps the current pair when nothing exceeds its
priority, and otherwise lands on the first rule attaining the maximal
priority of the list. -/
lemma selectAcc_spec :
    ∀ (rules : List CombinationRule) (p : HabitatName × ℕ),
    (maxPriority rules ≤ p.2 → selectAcc p rules = p) ∧
    (p.2 < maxPriority rules →
      ∃ r, rules.find? (fun x => decide (maxPriority rules ≤ x.priority)) = some r ∧
        selectAcc p rules = (r.habitat, r.priority)) := by
  intro rules
  induction rules with
  | nil =>
    intro p
    refine ⟨fun _ => rfl, fun h => absurd h (by simp [maxPriority])⟩
  | cons r rest ih =>
    intro p
    have hmax : maxPriority (r :: rest) = max r.priority (maxPriority rest) := rfl
    constructor
    · intro hle
      rw [hmax, Nat.max_le] at hle
      have hp : ¬ p.2 < r.priority := Nat.not_lt.mpr hle.1
      simp only [selectAcc, if_neg hp]
      exact (ih p).1 hle.2
    · intro hlt
      by_cases hp : p.2 < r.priority
      · simp only [selectAcc, if_pos hp]
        by_cases hrest : maxPriority rest ≤ r.priority
        · have hm : maxPriority (r :: rest) = r.priority := by
            rw [hmax]; exact Nat.max_eq_left hrest
          refine ⟨r, ?_, ?_⟩
          · rw [List.find?_cons_of_pos]
            simp [hm]
          · exact (ih (r.habitat, r.priority)).1 hrest
        · have hlt2 : r.priority < maxPriority rest := Nat.lt_of_not_le hrest
          have hm : maxPriority (r :: rest) = maxPriority rest := by
            rw [hmax]; exact Nat.max_eq_right (Nat.le_of_lt hlt2)
          obtain ⟨r2, hfind, hsel⟩ := (ih (r.habitat, r.priority)).2 hlt2
          refine ⟨r2, ?_, hsel⟩
          rw [List.find?_cons_of_neg]
          · rw [hm]; exact hfind
          · simp [hm, Nat.not_le.mpr hlt2]
      · simp only [selectAcc, if_neg hp]
        have hple : r.priority ≤ p.2 := Nat.not_lt.mp hp
        have hlt2 : p.2 < maxPriority rest := by
          rw [hmax] at hlt
          rcases lt_max_iff.mp hlt with h | h
          · exact absurd h hp
          · exact h
        have hrp : r.priority < maxPriority rest := Nat.lt_of_le_of_lt hple hlt2
        have hm : maxPriority (r :: rest) = maxPriority rest := by
          rw [hmax]; exact Nat.max_eq_right (Nat.le_of_lt hrp)
        obtain ⟨r2, hfind, hsel⟩ := (ih p).2 hlt2
        refine ⟨r2, ?_, hsel⟩
        rw [List.find?_cons_of_neg]
        · rw [hm]; exact hfind
        · simp [hm, Nat.not_le.mpr hrp]

/-- Two searches with predicates that agree on the list's members find
the same element. -/
lemma find?_congr_on {α : Type} (p q : α → Bool) :
    ∀ (l : List α), (∀ x ∈ l, p x = q x) → l.find? p = l.find? q := by
  intro l
  induction l with
  | nil => intro _; rfl
  | cons x rest ih =>
    intro h
    have hx := h x (List.mem_cons_self x rest)
    by_cases hp : p x = true
    · have hq : q x = true := hx ▸ hp
      rw [List.find?_cons_of_pos _ hp, List.find?_cons_of_pos _ hq]
    · have hq : ¬ q x = true := fun hq => hp (hx ▸ hq)
      rw [List.find?_cons_of_neg _ (by simpa using hp), List.find?_cons_of_neg _ (by simpa using hq)]
      exact ih (fun y hy => h y (List.mem_cons_of_mem x hy))

/-- Bounding every priority of a rule list by a number is the same as
bounding its maximal priority, at the level of the boolean predicates
used in the search. -/
lemma firstMax_pred_agrees (rules : List CombinationRule) (r : CombinationRule) :
    (rules.all (fun y => y.priority ≤ r.priority)) =
      decide (maxPriority rules ≤ r.priority) := by
  have hiff : (rules.all (fun y => y.priority ≤ r.priority) = true) ↔
      (decide (maxPriority rules ≤ r.priority) = true) := by
    simp [List.all_eq_true, maxPriority_le_iff]
  exact Bool.eq_iff_iff.mpr hiff

/-- A scan over rules none of which matches leaves the best pair as it
was. -/
lemma bestCombMatch_no_match (typeNames : List String) :
    ∀ (rules : List CombinationRule) (b : Option (HabitatName × ℕ)),
    (∀ r ∈ rules, ruleMatches typeNames r = false) →
    bestCombMatch typeNames rules b = b := by
  intro rules
  induction rules with
  | nil => intro b _; rfl
  | cons r rest ih =>
    intro b h
    unfold bestCombMatch
    rw [if_neg (by simp [h r (List.mem_cons_self r rest)])]
    exact ih b (fun x hx => h x (List.mem_cons_of_mem r hx))

/-- Membership is preserved by the sorted insertion. -/
lemma sortedInsert_mem (s t : String) :
    ∀ (l : List String), s ∈ sortedInsert t l ↔ s = t ∨ s ∈ l := by
  intro l
  induction l with
  | nil => simp [sortedInsert]
  | cons x rest ih =>
    unfold sortedInsert
    by_cases h : jsStrLe t x
    · simp [h]
    · simp [h, ih]
      tauto

/-- Membership is preserved by the insertion sort. -/
lemma jsSort_mem (s : String) :
    ∀ (l : List String), s ∈ jsSort l ↔ s ∈ l := by
  intro l
  induction l with
  | nil => simp [jsSort]
  | cons x rest ih =>
    unfold jsSort at ih ⊢
    rw [List.foldr_cons, sortedInsert_mem, ih]
    simp

/-- Every combination rule requires at least one type that has a
single-type fallback entry. -/
lemma rules_use_recognized_types :
    ∀ r ∈ COMBINATION_PATTERNS,
      r.types.any (fun t => (TYPE_HABITAT_PATTERNS t).isSome) = true := by
  decide

/-- Membership in the set built by folding `setAdd`: an element is in
the result exactly when it was in the accumulator or in the list. -/
lemma foldl_setAdd_mem :
    ∀ (l acc : List String) (s : String),
    s ∈ l.foldl setAdd acc ↔ s ∈ acc ∨ s ∈ l := by
  intro l
  induction l with
  | nil => simp
  | cons x rest ih =>
    intro acc s
    rw [List.foldl_cons, ih]
    unfold setAdd
    by_cases h : acc.contains x
    · rw [if_pos h]
      have hx : x ∈ acc := by simpa [List.elem_iff] using h
      simp only [List.mem_cons]
      constructor
      · intro hs
        tauto
      · intro hs
        rcases hs with hs | hs | hs
        · tauto
        · subst hs; tauto
        · tauto
    · rw [if_neg h]
      simp [List.mem_append, List.mem_cons]
      tauto

/-- A nonzero record lookup means the search found an entry. -/
lemma find?_isSome_of_lookup_ne_zero (r : List (String × ℕ)) (t : String)
    (h : recordLookup r t ≠ 0) : ((r.find? (fun x => x.1 = t)).isSome : Bool) = true := by
  unfold recordLookup at h
  cases hf : r.find? (fun x => decide (x.1 = t)) with
  | none => rw [hf] at h; simp at h
  | some e => simp [hf]

/-- Under the absence of an uncovered major weakness, the code's
well-balanced condition coincides with the specification's. -/
lemma good_cond_iff (w r : List (String × ℕ))
    (h2 : ¬ ∃ e ∈ w, 2 ≤ e.2 ∧ recordLookup r e.1 = 0) :
    ((!w.any (fun e => 3 ≤ e.2)
      && (w.filter (fun e => 2 ≤ e.2)).all
           (fun e => (r.find? (fun x => x.1 = e.1)).isSome)
      && decide (0 < (w.filter (fun e => 2 ≤ e.2)).length)) = true) ↔
    ((¬ ∃ e ∈ w, 3 ≤ e.2) ∧ (∀ e ∈ w, 2 ≤ e.2 → 1 ≤ recordLookup r e.1) ∧
      (∃ e ∈ w, 2 ≤ e.2)) := by
  have hcov : ∀ e ∈ w, 2 ≤ e.2 → 1 ≤ recordLookup r e.1 := by
    intro e he h2e
    have hne : recordLookup r e.1 ≠ 0 := fun h0 => h2 ⟨e, he, h2e, h0⟩
    exact Nat.one_le_iff_ne_zero.mpr hne
  constructor
  · intro hb
    rw [Bool.and_eq_true, Bool.and_eq_true] at hb
    obtain ⟨⟨hb1, _⟩, hb3⟩ := hb
    refine ⟨?_, hcov, ?_⟩
    · intro ⟨e, he, h3e⟩
      rw [Bool.not_eq_eq_eq_not, Bool.not_true] at hb1
      have : w.any (fun e => 3 ≤ e.2) = true := by
        rw [List.any_eq_true]
        exact ⟨e, he, by simpa using h3e⟩
      rw [this] at hb1
      exact Bool.true_eq_false.mp hb1
    · have hlen : 0 < (w.filter (fun e => 2 ≤ e.2)).length := by simpa using hb3
      obtain ⟨e, he⟩ := List.exists_mem_of_length_pos hlen
      have := List.mem_filter.mp he
      exact ⟨e, this.1, by simpa using this.2⟩
  · intro ⟨hno3, _, hsome2⟩
    rw [Bool.and_eq_true, Bool.and_eq_true]
    refine ⟨⟨?_, ?_⟩, ?_⟩
    · rw [Bool.not_eq_eq_eq_not, Bool.not_true]
      rw [Bool.eq_false_iff]
      intro hany
      rw [List.any_eq_true] at hany
      obtain ⟨e, he, h3e⟩ := hany
      exact hno3 ⟨e, he, by simpa using h3e⟩
    · rw [List.all_eq_true]
      intro e he
      have hm := List.mem_filter.mp he
      exact find?_isSome_of_lookup_ne_zero r e.1
        (Nat.one_le_iff_ne_zero.mp (hcov e hm.1 (by simpa using hm.2)))
    · obtain ⟨e, he, h2e⟩ := hsome2
      have : e ∈ w.filter (fun e => 2 ≤ e.2) :=
        List.mem_filter.mpr ⟨he, by simpa using h2e⟩
      simpa using List.length_pos.mpr (List.ne_nil_of_mem this)

/-! Claim theorems. -/

/-- C1: for every defending type profile whose relation data is present
and satisfies the disjointness data contract at the attacking type, the
computed effectiveness multiplier equals the product, over the profile's
types, of the per-type factor 2, 1/2, 0 or 1 given by membership of the
attacking type in the double-, half- or no-damage list. -/
theorem effectiveness_is_product_of_factors (m : String → Option DamageRelations)
    (types : List String) (atk : String)
    (hpres : ∀ ty ∈ types, (m ty).isSome = true)
    (hdisj : ∀ ty ∈ types, disjointAt (relationsOrEmpty m ty) atk) :
    memberMultiplier m types atk =
      (types.map (fun ty => specFactor (relationsOrEmpty m ty) atk)).prod := by
  unfold memberMultiplier
  rw [foldl_multStep_eq_prod m atk types 1 hdisj, one_mul]

/-- Witness for C1 at the specification's concrete case: the profile of
fire and steel against attacking type fire multiplies 1/2 and 2 into the
neutral multiplier 1. -/
theorem effectiveness_is_product_of_factors_witness :
    memberMultiplier canonicalMap ["fire", "steel"] "fire" =
      ((["fire", "steel"] : List String).map
        (fun ty => specFactor (relationsOrEmpty canonicalMap ty) "fire")).prod ∧
    memberMultiplier canonicalMap ["fire", "steel"] "fire" = 1 := by
  constructor
  · exact effectiveness_is_product_of_factors canonicalMap ["fire", "steel"] "fire"
      (by decide) (by decide)
  · simp +decide [memberMultiplier, multStep, canonicalMap, fireRelations, steelRelations]

/-- C2: for every attacking type of the canonical 18-type list, the
aggregated weakness count is the number of roster members whose final
multiplier against it is strictly above 1, and the resistance count the
number of members whose final multiplier is strictly below 1; each member
is counted through its one multiplier, hence at most once per type. -/
theorem aggregate_counts_per_member (m : String → Option DamageRelations)
    (team : List (List String)) (atk : String) (hmem : atk ∈ ALL_TYPES) :
    (aggregateCounts m team).1 atk =
      (team.filter (fun types => decide (1 < memberMultiplier m types atk))).length ∧
    (aggregateCounts m team).2 atk =
      (team.filter (fun types => decide (memberMultiplier m types atk < 1))).length :=
  aggregateCounts_apply m team atk hmem

/-- Witness for C2 at the specification's concrete case: the rock and
ground member has multiplier 4 against water and is counted exactly once
in the weakness count for water. -/
theorem aggregate_counts_per_member_witness :
    (aggregateCounts canonicalMap [["rock", "ground"]]).1 "water" =
      (([["rock", "ground"]] : List (List String)).filter
        (fun types => decide (1 < memberMultiplier canonicalMap types "water"))).length ∧
    memberMultiplier canonicalMap ["rock", "ground"] "water" = 4 ∧
    (aggregateCounts canonicalMap [["rock", "ground"]]).1 "water" = 1 := by
  have h4 : memberMultiplier canonicalMap ["rock", "ground"] "water" = 4 := by
    simp +decide [memberMultiplier, multStep, canonicalMap, rockRelations,
      groundRelations] <;> norm_num
  have hcount := (aggregate_counts_per_member canonicalMap [["rock", "ground"]] "water"
    (by decide)).1
  refine ⟨hcount, h4, ?_⟩
  rw [hcount]
  rw [show (([["rock", "ground"]] : List (List String)).filter
      (fun types => decide (1 < memberMultiplier canonicalMap types "water"))) =
      [["rock", "ground"]] from ?_]
  · rfl
  · rw [List.filter_cons, if_pos ?_, List.filter_nil]
    rw [h4]
    norm_num

/-- C4 (amended): when some type query has no data the hook aborts and
returns empty weakness and resistance records; when every query has data
the aggregation runs on the resulting relation map, and within it a
member type missing from the map contributes the neutral factor 1, the
multiplier being that of the member's available types alone. -/
theorem partial_relation_data_behaviour (queries : List (Option TypeQueryResult))
    (team : List (List String)) (m : String → Option DamageRelations)
    (types : List String) (atk : String) :
    (queries.any (fun q => q.isNone) = true →
      useTeamTypeAnalysis queries team = (fun _ => 0, fun _ => 0)) ∧
    (queries.any (fun q => q.isNone) = false →
      useTeamTypeAnalysis queries team = aggregateCounts (buildTypeDataMap queries) team) ∧
    (memberMultiplier m types atk =
      memberMultiplier m (types.filter (fun ty => (m ty).isSome)) atk) := by
  refine ⟨?_, ?_, ?_⟩
  · intro h
    simp [useTeamTypeAnalysis, h]
  · intro h
    simp [useTeamTypeAnalysis, h]
  · exact memberMultiplier_filter_available m atk types 1

/-- Counterexample to C4 as stated: with relation data for grass missing
at the query level, the hook returns the empty record (weakness count 0
for water), while the non-aborting aggregation over the same team would
still count the fire member's weakness to water. -/
theorem partial_relation_data_counterexample :
    (useTeamTypeAnalysis [some ⟨"fire", fireRelations⟩, none]
        [["fire"], ["grass"]]).1 "water" = 0 ∧
    (aggregateCounts (buildTypeDataMap [some ⟨"fire", fireRelations⟩])
        [["fire"], ["grass"]]).1 "water" = 1 ∧
    (0 : ℕ) ≠ 1 := by
  refine ⟨?_, ?_, by norm_num⟩
  · simp [useTeamTypeAnalysis]
  · have hfire : memberMultiplier (buildTypeDataMap [some ⟨"fire", fireRelations⟩])
        ["fire"] "water" = 2 := by
      simp +decide [memberMultiplier, multStep, buildTypeDataMap, fireRelations]
    have hgrass : memberMultiplier (buildTypeDataMap [some ⟨"fire", fireRelations⟩])
        ["grass"] "water" = 1 := by
      simp +decide [memberMultiplier, multStep, buildTypeDataMap]
    rw [(aggregateCounts_apply (buildTypeDataMap [some ⟨"fire", fireRelations⟩])
      [["fire"], ["grass"]] "water" (by decide)).1]
    rw [List.filter_cons, List.filter_cons, List.filter_nil, if_pos ?_, if_neg ?_]
    · rfl
    · rw [hgrass]
      norm_num
    · rw [hfire]
      norm_num

/-- C3: the classifier evaluates the ordered rules first-match-wins:
critical for a weakness entry of count at least 3 with zero resistance
count, then warning for count at least 2 with zero resistance count, then
good when no entry reaches 3, every entry of count at least 2 has at
least one resistor and at least one such entry exists, and neutral
otherwise; an empty weakness record yields neutral. -/
theorem team_status_rule_order (w r : List (String × ℕ)) :
    getTeamSummaryStatus w r =
      (if ∃ e ∈ w, 3 ≤ e.2 ∧ recordLookup r e.1 = 0 then TeamStatus.critical
       else if ∃ e ∈ w, 2 ≤ e.2 ∧ recordLookup r e.1 = 0 then TeamStatus.warning
       else if (¬ ∃ e ∈ w, 3 ≤ e.2) ∧ (∀ e ∈ w, 2 ≤ e.2 → 1 ≤ recordLookup r e.1) ∧
           (∃ e ∈ w, 2 ≤ e.2) then TeamStatus.good
       else TeamStatus.neutral) ∧
    getTeamSummaryStatus [] r = TeamStatus.neutral := by
  constructor
  · have hany3 : (w.any (fun e => 3 ≤ e.2 && recordLookup r e.1 = 0) = true) ↔
        (∃ e ∈ w, 3 ≤ e.2 ∧ recordLookup r e.1 = 0) := by
      simp [List.any_eq_true]
    have hany2 : (w.any (fun e => 2 ≤ e.2 && recordLookup r e.1 = 0) = true) ↔
        (∃ e ∈ w, 2 ≤ e.2 ∧ recordLookup r e.1 = 0) := by
      simp [List.any_eq_true]
    unfold getTeamSummaryStatus
    by_cases h3 : ∃ e ∈ w, 3 ≤ e.2 ∧ recordLookup r e.1 = 0
    · rw [if_pos (hany3.mpr h3), if_pos h3]
    · rw [if_neg (fun hb => h3 (hany3.mp hb)), if_neg h3]
      by_cases h2 : ∃ e ∈ w, 2 ≤ e.2 ∧ recordLookup r e.1 = 0
      · rw [if_pos (hany2.mpr h2), if_pos h2]
      · rw [if_neg (fun hb => h2 (hany2.mp hb)), if_neg h2]
        by_cases hg : (¬ ∃ e ∈ w, 3 ≤ e.2) ∧ (∀ e ∈ w, 2 ≤ e.2 → 1 ≤ recordLookup r e.1) ∧
            (∃ e ∈ w, 2 ≤ e.2)
        · rw [if_pos ((good_cond_iff w r h2).mpr hg), if_pos hg]
        · rw [if_neg (fun hb => hg ((good_cond_iff w r h2).mp hb)), if_neg hg]
  · rfl

/-- C5 (evaluation at the failing input): for the ordered profile of
water then fire, which matches no combination rule, the code sorts the
names to fire then water and returns the fallback tag of fire,
rough-terrain, not the tag sea mapped to water, the profile's first
type. -/
theorem fallback_order_failing_input :
    inferHabitatFromTypes ["water", "fire"] = HabitatName.roughTerrain ∧
    processedTypeNames ["water", "fire"] = ["fire", "water"] ∧
    COMBINATION_PATTERNS.filter (ruleMatches (processedTypeNames ["water", "fire"])) = [] ∧
    TYPE_HABITAT_PATTERNS "water" = some HabitatName.sea ∧
    TYPE_HABITAT_PATTERNS "fire" = some HabitatName.roughTerrain ∧
    HabitatName.roughTerrain ≠ HabitatName.sea := by
  decide

/-- C6: when at least one combination rule matches the processed type
names, the inferred habitat is that of the first matching rule whose
priority bounds the priorities of all matching rules — the
highest-priority match, ties resolved to the first-declared rule. -/
theorem combination_rule_selection (types : List String)
    (hne : types ≠ [])
    (hmatch : COMBINATION_PATTERNS.filter (ruleMatches (processedTypeNames types)) ≠ []) :
    ∃ rule,
      (COMBINATION_PATTERNS.filter (ruleMatches (processedTypeNames types))).find?
        (fun x => (COMBINATION_PATTERNS.filter (ruleMatches (processedTypeNames types))).all
          (fun y => y.priority ≤ x.priority)) = some rule ∧
      inferHabitatFromTypes types = rule.habitat := by
  obtain ⟨r0, rs, hcons⟩ :=
    List.exists_cons_of_ne_nil hmatch
  have hfind : (COMBINATION_PATTERNS.filter (ruleMatches (processedTypeNames types))).find?
      (fun x => (COMBINATION_PATTERNS.filter (ruleMatches (processedTypeNames types))).all
        (fun y => y.priority ≤ x.priority)) =
      (COMBINATION_PATTERNS.filter (ruleMatches (processedTypeNames types))).find?
        (fun x => decide (maxPriority
          (COMBINATION_PATTERNS.filter (ruleMatches (processedTypeNames types))) ≤ x.priority)) :=
    find?_congr_on _ _ _
      (fun x _ => firstMax_pred_agrees
        (COMBINATION_PATTERNS.filter (ruleMatches (processedTypeNames types))) x)
  have hinfer : inferHabitatFromTypes types =
      (selectAcc (r0.habitat, r0.priority) rs).1 := by
    unfold inferHabitatFromTypes
    rw [if_neg (by simpa [List.isEmpty_iff] using hne)]
    rw [bestCombMatch_none, hcons]
  rw [hfind, hcons]
  have hmaxcons : maxPriority (r0 :: rs) = max r0.priority (maxPriority rs) := rfl
  by_cases hmx : maxPriority rs ≤ r0.priority
  · have hmeq : maxPriority (r0 :: rs) = r0.priority := by
      rw [hmaxcons]
      exact Nat.max_eq_left hmx
    refine ⟨r0, ?_, ?_⟩
    · rw [List.find?_cons_of_pos]
      simp [hmeq]
    · rw [hinfer, (selectAcc_spec rs (r0.habitat, r0.priority)).1 hmx]
  · have hlt : r0.priority < maxPriority rs := Nat.lt_of_not_le hmx
    have hmeq : maxPriority (r0 :: rs) = maxPriority rs := by
      rw [hmaxcons]
      exact Nat.max_eq_right (Nat.le_of_lt hlt)
    obtain ⟨r2, hfind2, hsel⟩ := (selectAcc_spec rs (r0.habitat, r0.priority)).2 hlt
    refine ⟨r2, ?_, ?_⟩
    · rw [List.find?_cons_of_neg]
      · rw [hmeq]
        exact hfind2
      · simp [hmeq, Nat.not_le.mpr hlt]
    · rw [hinfer, hsel]

/-- Witness for C6 at the specification's concrete case: for the profile
of water and flying the selected rule is returned by the highest-priority
first-declared search, and the inferred habitat is its habitat, the
waters-edge tag. -/
theorem combination_rule_selection_witness :
    (∃ rule,
      (COMBINATION_PATTERNS.filter (ruleMatches (processedTypeNames ["water", "flying"]))).find?
        (fun x => (COMBINATION_PATTERNS.filter
            (ruleMatches (processedTypeNames ["water", "flying"]))).all
          (fun y => y.priority ≤ x.priority)) = some rule ∧
      inferHabitatFromTypes ["water", "flying"] = rule.habitat) ∧
    inferHabitatFromTypes ["water", "flying"] = HabitatName.watersEdge := by
  constructor
  · exact combination_rule_selection ["water", "flying"] (by decide) (by decide)
  · decide

/-- A supplied authoritative habitat tag is returned unchanged whatever
the types are. -/
lemma getHabitatWithInference_authoritative (types : List String) (h : HabitatName) :
    getHabitatWithInference (some h) types = h := rfl

/-- On every name that is not an `Object.prototype` property name, the
runtime lookup agrees with the declared table. -/
lemma runtimeLookup_agrees_off_prototype (s : String)
    (h : jsPrototypeKeys.contains s = false) :
    TYPE_HABITAT_PATTERNS_runtimeLookup s =
      (TYPE_HABITAT_PATTERNS s).map JsLookupValue.habitat := by
  have h' : s ∉ jsPrototypeKeys := by simpa using h
  unfold TYPE_HABITAT_PATTERNS_runtimeLookup
  cases ht : TYPE_HABITAT_PATTERNS s <;> simp [ht, h']

/-- C7 (evaluation at the failing input): the authoritative tag is
returned unchanged and the empty profile defaults to grassland, but for
the profile holding only the unrecognized name constructor — which
matches no combination rule and has no own fallback entry — the runtime
record lookup finds the truthy property inherited from
`Object.prototype` and the fallback loop returns that inherited value,
not the default grassland that the claim, the function's own
documentation and its declared return type promise; the closed-table
idealization of the same loop would return grassland. -/
theorem habitat_prototype_chain_failing_input :
    getHabitatWithInference (some HabitatName.forest) ["constructor"] = HabitatName.forest ∧
    getHabitatWithInference none [] = HabitatName.grassland ∧
    processedTypeNames ["constructor"] = ["constructor"] ∧
    COMBINATION_PATTERNS.filter (ruleMatches (processedTypeNames ["constructor"])) = [] ∧
    TYPE_HABITAT_PATTERNS "constructor" = none ∧
    inferHabitatFromTypes ["constructor"] = HabitatName.grassland ∧
    TYPE_HABITAT_PATTERNS_runtimeLookup "constructor" =
      some JsLookupValue.inheritedObjectProperty ∧
    singleTypeFallbackJs (processedTypeNames ["constructor"]) =
      some JsLookupValue.inheritedObjectProperty ∧
    JsLookupValue.inheritedObjectProperty ≠ JsLookupValue.habitat HabitatName.grassland := by
  decide

/-- C8: the counter extraction returns, for available relation data,
exactly the set of names in the double-damage-from list — every listed
name and nothing else — and nothing for missing data; for the canonical
fire entry the result is water, ground and rock. -/
theorem counter_types_are_double_damage_from (rel : DamageRelations) (s : String) :
    (∃ counters, findCounterTypes (some rel) = some counters ∧
      (s ∈ counters ↔ s ∈ rel.double_damage_from)) ∧
    findCounterTypes none = none ∧
    findCounterTypes (some fireRelations) = some ["water", "ground", "rock"] := by
  refine ⟨⟨rel.double_damage_from.foldl setAdd [], rfl, ?_⟩, rfl, by decide⟩
  rw [foldl_setAdd_mem]
  simp

/-- Counterexample to C9 as stated: for a relation entry listing the
attacking type fire in both the double- and the half-damage list, the
hook's per-type contribution is the product 2 times 1/2, giving final
multiplier 1 — not the factor 2 the stated priority would give. -/
theorem relation_overlap_counterexample :
    memberMultiplier
      (fun s => if s = "slot" then some (DamageRelations.mk ["fire"] ["fire"] []) else none)
      ["slot"] "fire" = 1 ∧ (1 : ℚ) ≠ 2 := by
  constructor
  · unfold memberMultiplier
    rw [List.foldl_cons, List.foldl_nil]
    unfold multStep
    simp +decide
  · norm_num

/-- C9 (amended): the earlier sidebar computation applies the stated
priority — no-damage first, then double, then half; the hook's
computation instead multiplies every matching list's factor, so an
attacking type in both the double- and half-damage lists contributes the
neutral product 1, while membership in the no-damage list still forces
the multiplier to 0 in both computations. -/
theorem relation_overlap_policy (rel : DamageRelations) (atk ty : String)
    (m : String → Option DamageRelations) :
    (rel.no_damage_from.contains atk = true → sidebarTypeMultiplier rel atk = 0) ∧
    (rel.no_damage_from.contains atk = false → rel.double_damage_from.contains atk = true →
      sidebarTypeMultiplier rel atk = 2) ∧
    (rel.no_damage_from.contains atk = false → rel.double_damage_from.contains atk = false →
      rel.half_damage_from.contains atk = true → sidebarTypeMultiplier rel atk = 1/2) ∧
    (m ty = some rel → rel.no_damage_from.contains atk = true →
      memberMultiplier m [ty] atk = 0) ∧
    (m ty = some rel → rel.no_damage_from.contains atk = false →
      rel.double_damage_from.contains atk = true → rel.half_damage_from.contains atk = true →
      memberMultiplier m [ty] atk = 1) := by
  refine ⟨?_, ?_, ?_, ?_, ?_⟩
  · intro hn
    have hn' : atk ∈ rel.no_damage_from := by simpa [List.elem_iff] using hn
    simp [sidebarTypeMultiplier, hn']
  · intro hn hd
    have hn' : atk ∉ rel.no_damage_from := by simpa [List.elem_iff] using hn
    have hd' : atk ∈ rel.double_damage_from := by simpa [List.elem_iff] using hd
    simp [sidebarTypeMultiplier, hn', hd']
  · intro hn hd hh
    have hn' : atk ∉ rel.no_damage_from := by simpa [List.elem_iff] using hn
    have hd' : atk ∉ rel.double_damage_from := by simpa [List.elem_iff] using hd
    have hh' : atk ∈ rel.half_damage_from := by simpa [List.elem_iff] using hh
    simp [sidebarTypeMultiplier, hn', hd', hh']
  · intro hm hn
    have hn' : atk ∈ rel.no_damage_from := by simpa [List.elem_iff] using hn
    unfold memberMultiplier
    rw [List.foldl_cons, List.foldl_nil]
    unfold multStep
    rw [hm]
    simp [List.elem_iff, hn']
  · intro hm hn hd hh
    have hn' : atk ∉ rel.no_damage_from := by simpa [List.elem_iff] using hn
    have hd' : atk ∈ rel.double_damage_from := by simpa [List.elem_iff] using hd
    have hh' : atk ∈ rel.half_damage_from := by simpa [List.elem_iff] using hh
    unfold memberMultiplier
    rw [List.foldl_cons, List.foldl_nil]
    unfold multStep
    rw [hm]
    simp [List.elem_iff, hn', hd', hh']

/-- Witness for C9 at a concrete overlapping entry: fire in both the
double- and half-damage lists of one entry, and fire in the no-damage
list of another. -/
theorem relation_overlap_policy_witness :
    (((DamageRelations.mk ["fire"] ["fire"] ["fire"]).no_damage_from.contains "fire" = true →
        sidebarTypeMultiplier (DamageRelations.mk ["fire"] ["fire"] ["fire"]) "fire" = 0) ∧
      (((DamageRelations.mk ["fire"] ["fire"] ["fire"]).no_damage_from.contains "fire" = false →
        (DamageRelations.mk ["fire"] ["fire"] ["fire"]).double_damage_from.contains "fire" = true →
        sidebarTypeMultiplier (DamageRelations.mk ["fire"] ["fire"] ["fire"]) "fire" = 2)) ∧
      (((DamageRelations.mk ["fire"] ["fire"] ["fire"]).no_damage_from.contains "fire" = false →
        (DamageRelations.mk ["fire"] ["fire"] ["fire"]).double_damage_from.contains "fire" = false →
        (DamageRelations.mk ["fire"] ["fire"] ["fire"]).half_damage_from.contains "fire" = true →
        sidebarTypeMultiplier (DamageRelations.mk ["fire"] ["fire"] ["fire"]) "fire" = 1/2)) ∧
      (((fun s => if s = "slot" then some (DamageRelations.mk ["fire"] ["fire"] ["fire"]) else none) "slot" =
          some (DamageRelations.mk ["fire"] ["fire"] ["fire"]) →
        (DamageRelations.mk ["fire"] ["fire"] ["fire"]).no_damage_from.contains "fire" = true →
        memberMultiplier
          (fun s => if s = "slot" then some (DamageRelations.mk ["fire"] ["fire"] ["fire"]) else none)
          ["slot"] "fire" = 0)) ∧
      ((fun s => if s = "slot" then some (DamageRelations.mk ["fire"] ["fire"] ["fire"]) else none) "slot" =
          some (DamageRelations.mk ["fire"] ["fire"] ["fire"]) →
        (DamageRelations.mk ["fire"] ["fire"] ["fire"]).no_damage_from.contains "fire" = false →
        (DamageRelations.mk ["fire"] ["fire"] ["fire"]).double_damage_from.contains "fire" = true →
        (DamageRelations.mk ["fire"] ["fire"] ["fire"]).half_damage_from.contains "fire" = true →
        memberMultiplier
          (fun s => if s = "slot" then some (DamageRelations.mk ["fire"] ["fire"] ["fire"]) else none)
          ["slot"] "fire" = 1)) :=
  relation_overlap_policy (DamageRelations.mk ["fire"] ["fire"] ["fire"]) "fire" "slot"
    (fun s => if s = "slot" then some (DamageRelations.mk ["fire"] ["fire"] ["fire"]) else none)

/-- C10: every team state reachable from the empty team holds at most 6
members with pairwise distinct ids; adding refuses a full team or a
duplicate id unchanged with result false, otherwise appends and reports
true; removing keeps exactly the members with a different id, in their
original relative order. -/
theorem team_invariant_and_operations (team : List TeamPokemon)
    (pokemon : TeamPokemon) (pokemonId : ℕ) (hreach : ReachableTeam team) :
    (team.length ≤ MAX_TEAM_SIZE ∧ (team.map (fun p => p.id)).Nodup) ∧
    ((MAX_TEAM_SIZE ≤ team.length ∨ ∃ p ∈ team, p.id = pokemon.id) →
      addPokemonToTeam team pokemon = (team, false)) ∧
    ((team.length < MAX_TEAM_SIZE ∧ ∀ p ∈ team, p.id ≠ pokemon.id) →
      addPokemonToTeam team pokemon = (team ++ [pokemon], true)) ∧
    (∀ q, q ∈ removePokemonFromTeam team pokemonId ↔ q ∈ team ∧ q.id ≠ pokemonId) ∧
    (removePokemonFromTeam team pokemonId).Sublist team := by
  refine ⟨?_, ?_, ?_, ?_, ?_⟩
  · clear pokemon pokemonId
    induction hreach with
    | empty => simp
    | add t p ht ih =>
      unfold addPokemonToTeam
      by_cases hfull : MAX_TEAM_SIZE ≤ t.length
      · rw [if_pos hfull]
        exact ih
      · rw [if_neg hfull]
        by_cases hdup : t.any (fun q => q.id = p.id)
        · rw [if_pos (by simpa using hdup)]
          exact ih
        · rw [if_neg (by simpa using hdup)]
          constructor
          · simp only [List.length_append, List.length_singleton]
            omega
          · rw [List.map_append]
            rw [List.nodup_append]
            refine ⟨ih.2, List.nodup_singleton _, ?_⟩
            intro x hx
            simp only [List.map_singleton, List.mem_singleton]
            intro hxp
            obtain ⟨q, hq, hqid⟩ := List.mem_map.mp hx
            rw [List.any_eq_true] at hdup
            exact hdup ⟨q, hq, by simp [hqid, hxp]⟩
    | remove t pid ht ih =>
      constructor
      · exact Nat.le_trans (List.length_filter_le _ t) ih.1
      · exact List.Nodup.sublist ((List.filter_sublist t).map (fun p => p.id)) ih.2
  · intro h
    unfold addPokemonToTeam
    rcases h with hfull | ⟨p, hp, hpid⟩
    · rw [if_pos hfull]
    · by_cases hfull : MAX_TEAM_SIZE ≤ team.length
      · rw [if_pos hfull]
      · rw [if_neg hfull, if_pos]
        rw [List.any_eq_true]
        exact ⟨p, hp, by simp [hpid]⟩
  · intro ⟨hlen, hids⟩
    unfold addPokemonToTeam
    rw [if_neg (Nat.not_le.mpr hlen), if_neg]
    simp only [List.any_eq_true, not_exists]
    intro q
    simp only [not_and]
    intro hq
    simp [hids q hq]
  · intro q
    unfold removePokemonFromTeam
    rw [List.mem_filter]
    simp
  · exact List.filter_sublist team

/-- Witness for C10 at the empty team: the invariant and the operation
properties hold for the empty reachable state, a fresh member and the
id 1. -/
theorem team_invariant_and_operations_witness :
    ((([] : List TeamPokemon).length ≤ MAX_TEAM_SIZE ∧
        (([] : List TeamPokemon).map (fun p => p.id)).Nodup) ∧
      ((MAX_TEAM_SIZE ≤ ([] : List TeamPokemon).length ∨
          ∃ p ∈ ([] : List TeamPokemon), p.id = (TeamPokemon.mk 1 "bulbasaur" none).id) →
        addPokemonToTeam [] (TeamPokemon.mk 1 "bulbasaur" none) = ([], false)) ∧
      ((([] : List TeamPokemon).length < MAX_TEAM_SIZE ∧
          ∀ p ∈ ([] : List TeamPokemon), p.id ≠ (TeamPokemon.mk 1 "bulbasaur" none).id) →
        addPokemonToTeam [] (TeamPokemon.mk 1 "bulbasaur" none) =
          ([] ++ [TeamPokemon.mk 1 "bulbasaur" none], true)) ∧
      (∀ q, q ∈ removePokemonFromTeam [] 1 ↔ q ∈ ([] : List TeamPokemon) ∧ q.id ≠ 1) ∧
      (removePokemonFromTeam [] 1).Sublist ([] : List TeamPokemon)) :=
  team_invariant_and_operations [] (TeamPokemon.mk 1 "bulbasaur" none) 1 ReachableTeam.empty

end DigPokemon
